import Mathlib

/-!
# The Loki log forwarder of `agent/logger.go`

A shallow embedding of the Go package `agent`: the type `LokiLogger`, its
constructor `NewLokiLogger` and its two methods `PushLog` and `Shutdown`.

The package is a thin adapter over collaborators that live outside the
repository (the process environment, the wall clock, the UUID generator, the
Loki client library, standard output).  Everything the adapter cannot decide by
itself is a field of `World`: the environment, the successive readings of the
clock, the successive tokens of the UUID generator, and the outcome of every
collaborator call as a function of the calls made so far.  Every call the
adapter makes to a collaborator is appended to `World.trace`, so that theorems
can count calls and read their arguments.

Conventions:
* a Go pointer is an `Option`, `none` being `nil`;
* a Go result pair `(v, err)` is a Lean pair of `Option`s;
* a Go method that can run into a nil dereference returns `Option`, `none`
  being the run-time panic;
* Go strings are Lean strings;
* `int` is 64 bits wide, as it is on the Lambda targets linux/amd64 and
  linux/arm64;
* the case tables of package `unicode`, which `strings.ToLower` consults above
  ASCII, are the parameter `table` of `NewLokiLogger`, and every theorem holds
  for every table;
* the package variable `labels` is assigned nowhere in the package, and the
  client does not write into the map it is handed, so it is a constant.
-/

namespace Agent

/-! ## Go values -/

/-- Go error values as the adapter meets them: `errorString` is what
`errors.New` builds, `wrapError` is what `fmt.Errorf` builds for a format with
one `%w` verb, and `library` stands for an error of any other concrete type
made by a collaborator, told apart by `code`. -/
inductive GoError where
  | errorString (s : String)
  | wrapError (msg : String) (err : GoError)
  | library (code : Nat) (msg : String)
  deriving DecidableEq, Repr

/-- The method `Error()`: the message of an error. -/
def GoError.Error : GoError → String
  | .errorString s => s
  | .wrapError msg _ => msg
  | .library _ msg => msg

/-- The function `errors.Unwrap`: the wrapped cause, when there is one. -/
def GoError.Unwrap : GoError → Option GoError
  | .errorString _ => none
  | .wrapError _ err => some err
  | .library _ _ => none

/-- The function `errors.New`. -/
def errors.New (text : String) : GoError := .errorString text

/-- The call `fmt.Errorf(lead + "%w", err)` for a literal `lead` without verbs:
the message is `lead` followed by `err.Error()`, and the value wraps `err`. -/
def fmt.Errorf (lead : String) (err : GoError) : GoError :=
  .wrapError (lead ++ err.Error) err

/-- Two's-complement wrap of an integer into the signed range of `bits` bits. -/
def wrapSigned (bits : Nat) (x : Int) : Int :=
  (x + 2 ^ (bits - 1)) % 2 ^ bits - 2 ^ (bits - 1)

/-- Width of the Go type `int`. -/
def intBits : Nat := 64

/-- The conversion `int(x)` of an `int64`. -/
def goInt (x : Int) : Int := wrapSigned intBits x

/-- A reading of `time.Now()`: an instant whose Unix time in nanoseconds is an
`int64` (outside that range, the years 1678 to 2262, Go leaves `UnixNano`
undefined). -/
structure Time where
  unixNano : Int
  lo : -9223372036854775808 ≤ unixNano
  hi : unixNano < 9223372036854775808

/-- The method `Time.UnixNano()`. -/
def Time.UnixNano (t : Time) : Int := t.unixNano

/-- A value of `model.LabelSet`, as its list of label name and label value. -/
abbrev LabelSet := List (String × String)

/-- The package variable `labels`. -/
def labels : LabelSet := [("job", "lambda")]

/-- The constant `MaxPartSize`. -/
def MaxPartSize : Nat := 5242880

/-! ## Standard library: strings and numbers -/

/-- The function `unicode.ToLower`: an ASCII capital letter is moved to its small
letter, any other ASCII character is returned as it is, and a character above
ASCII is looked up in the case tables of package `unicode`.  The tables are not
part of the repository; `table` is the lower-case mapping they define. -/
def unicode.ToLower (table : Char → Char) (r : Char) : Char :=
  if r.toNat ≤ 127 then
    if 65 ≤ r.toNat ∧ r.toNat ≤ 90 then Char.ofNat (r.toNat + 32) else r
  else table r

/-- The function `strings.ToLower`: every character mapped by `unicode.ToLower`
(the fast path that Go takes on an ASCII string computes the same). -/
def strings.ToLower (table : Char → Char) (s : String) : String :=
  String.mk (s.data.map (unicode.ToLower table))

/-- The character of a decimal digit. -/
def digitChar (d : Nat) : Char := Char.ofNat (48 + d)

/-- Decimal digits of `n`, most significant first; `fuel` bounds the number of
digits and `n + 1` is always enough. -/
def decimalDigits : Nat → Nat → List Char
  | 0, _ => []
  | fuel + 1, n =>
    if n < 10 then [digitChar n]
    else decimalDigits fuel (n / 10) ++ [digitChar (n % 10)]

/-- Decimal text of a natural number. -/
def decimal (n : Nat) : List Char := decimalDigits (n + 1) n

/-- The function `strconv.Itoa`: decimal text, with a leading minus sign for a
negative number. -/
def strconv.Itoa (i : Int) : String :=
  if i < 0 then String.mk ('-' :: decimal i.natAbs) else String.mk (decimal i.natAbs)

/-! ## Collaborators outside the repository -/

/-- A UUID of `github.com/google/uuid`: sixteen bytes. -/
structure UUID where
  bytes : List (Fin 256)
  size : bytes.length = 16

/-- One lower-case hexadecimal digit. -/
def hexDigit (n : Nat) : Char :=
  if n < 10 then Char.ofNat (48 + n) else Char.ofNat (87 + n)

/-- Lower-case hexadecimal text of a run of bytes, two digits a byte. -/
def hexEncode : List (Fin 256) → List Char
  | [] => []
  | b :: bs => hexDigit (b.val / 16) :: hexDigit (b.val % 16) :: hexEncode bs

/-- The method `UUID.String()`, which `%s` prints: the canonical form
`xxxxxxxx-xxxx-xxxx-xxxx-xxxxxxxxxxxx`. -/
def UUID.String (u : UUID) : String :=
  String.mk
    (hexEncode (u.bytes.take 4) ++ '-' ::
      (hexEncode ((u.bytes.drop 4).take 2) ++ '-' ::
        (hexEncode ((u.bytes.drop 6).take 2) ++ '-' ::
          (hexEncode ((u.bytes.drop 8).take 2) ++ '-' ::
            hexEncode (u.bytes.drop 10)))))

/-- A `bytes.Buffer`: its unread contents and the capacity it is guaranteed
to have. -/
structure Buffer where
  buf : List (Fin 256)
  cap : Nat
  deriving DecidableEq, Repr

/-- The function `bytes.NewBuffer`. -/
def bytes.NewBuffer (b : List (Fin 256)) : Buffer := ⟨b, b.length⟩

/-- The method `Buffer.Grow`: afterwards another `n` bytes fit without a new
allocation. -/
def Buffer.Grow (b : Buffer) (n : Nat) : Buffer :=
  if b.buf.length + n ≤ b.cap then b else { b with cap := b.buf.length + n }

/-- The method `Buffer.Len`. -/
def Buffer.Len (b : Buffer) : Nat := b.buf.length

/-- A value of `loki.Config`, which the adapter only passes on. -/
structure Config where
  tag : Nat
  deriving DecidableEq, Repr

/-- A live `loki.Client`, named by its address. -/
structure Client where
  addr : Nat
  deriving DecidableEq, Repr

/-- One call made by the adapter to a collaborator. -/
inductive Event where
  | stdout (text : String)
  | newDefaultConfig (url : String)
  | newClient (cfg : Config)
  | handle (c : Client) (ls : LabelSet) (t : Time) (line : String)

/-- Everything outside the adapter.  The `...Outcome` fields give the result of
a collaborator call from the calls made before it and its arguments. -/
structure World where
  env : List (String × String)
  clock : Nat → Time
  reads : Nat
  tokens : Nat → UUID
  drawn : Nat
  configOutcome : List Event → String → Except GoError Config
  clientOutcome : List Event → Config → Except GoError Client
  handleOutcome : List Event → Client → LabelSet → Time → String → Option GoError
  trace : List Event

/-- Record one collaborator call. -/
def World.emit (w : World) (e : Event) : World := { w with trace := w.trace ++ [e] }

/-- The function `os.LookupEnv`: the value and whether the variable is present;
the first entry of a name wins. -/
def os.LookupEnv (w : World) (key : String) : Option String := w.env.lookup key

/-- The function `os.Getenv`: the value, or the empty string when absent. -/
def os.Getenv (w : World) (key : String) : String := (os.LookupEnv w key).getD ""

/-- The function `time.Now`: the next reading of the clock. -/
def time.Now (w : World) : Time × World := (w.clock w.reads, { w with reads := w.reads + 1 })

/-- The function `uuid.New`: the next token of the generator. -/
def uuid.New (w : World) : UUID × World := (w.tokens w.drawn, { w with drawn := w.drawn + 1 })

/-- The call `fmt.Println(a, b)` of two strings: the operands separated by a
blank, then a newline, on standard output. -/
def fmt.Println (w : World) (a b : String) : World := w.emit (.stdout (a ++ " " ++ b ++ "\n"))

/-- The function `loki.NewDefaultConfig`. -/
def loki.NewDefaultConfig (w : World) (url : String) : Except GoError Config × World :=
  (w.configOutcome w.trace url, w.emit (.newDefaultConfig url))

/-- The function `loki.New`, which returns a client exactly when it returns no
error. -/
def loki.New (w : World) (cfg : Config) : Except GoError Client × World :=
  (w.clientOutcome w.trace cfg, w.emit (.newClient cfg))

/-- The method `Client.Handle`. -/
def Client.Handle (c : Client) (ls : LabelSet) (t : Time) (s : String) (w : World) :
    Option GoError × World :=
  (w.handleOutcome w.trace c ls t s, w.emit (.handle c ls t s))

/-! ## The adapter -/

/-- The struct `LokiLogger`; `client` and `logBuffer` are pointers. -/
structure LokiLogger where
  client : Option Client
  functionName : String
  endpoint : String
  key : String
  logBuffer : Option Buffer
  deriving DecidableEq, Repr

/-- The function `NewLokiLogger`: the returned pair and the world afterwards;
`table` is the lower-case mapping of the `unicode` tables. -/
def NewLokiLogger (table : Char → Char) (w : World) :
    (Option LokiLogger × Option GoError) × World :=
  let fName := strings.ToLower table (os.Getenv w "AWS_LAMBDA_FUNCTION_NAME")
  match os.LookupEnv w "LOKI_PUSH_ENDPOINT" with
  | none => ((none, some (errors.New "environment variable LOKI_PUSH_ENDPOINT is not set")), w)
  | some endpoint =>
    let w1 := fmt.Println w "Sending logs to:" endpoint
    let now := time.Now w1
    let ts := goInt (Int.tdiv now.1.UnixNano 1000000)
    let timestampMilli := strconv.Itoa ts
    let u := uuid.New now.2
    let key := fName ++ "-" ++ timestampMilli ++ "-" ++ u.1.String ++ ".log"
    let buffer := (bytes.NewBuffer []).Grow (2 * MaxPartSize)
    let rc := loki.NewDefaultConfig u.2 endpoint
    match rc.1 with
    | .error err => ((none, some (fmt.Errorf "error getting default config: " err)), rc.2)
    | .ok cfg =>
      let rn := loki.New rc.2 cfg
      match rn.1 with
      | .error err => ((none, some (fmt.Errorf "error creating loki client: " err)), rn.2)
      | .ok client =>
        ((some
            { client := some client
              functionName := fName
              endpoint := endpoint
              key := key
              logBuffer := some buffer },
          none), rn.2)

/-- The method `PushLog`: the returned error, the instance and the world
afterwards; `none` is the panic of a nil client. -/
def LokiLogger.PushLog (l : LokiLogger) (log : String) (w : World) :
    Option ((Option GoError × LokiLogger) × World) :=
  match l.client with
  | none => none
  | some c =>
    let now := time.Now w
    let r := c.Handle labels now.1 log now.2
    some ((r.1, l), r.2)

/-- The method `Shutdown`: the returned error, the instance and the world
afterwards. -/
def LokiLogger.Shutdown (l : LokiLogger) (w : World) : (Option GoError × LokiLogger) × World :=
  ((none, l), w)

/-! ## Callers and observations -/

/-- One call of a caller on an instance. -/
inductive Op where
  | push (line : String)
  | shutdown

/-- A single caller making the calls `ops` one after the other, whatever each
returns: the returned errors in call order, the instance and the world
afterwards; `none` when a call panics. -/
def run : LokiLogger → List Op → World → Option (List (Option GoError) × LokiLogger × World)
  | l, [], w => some ([], l, w)
  | l, .push line :: ops, w =>
    match l.PushLog line w with
    | none => none
    | some r => (run r.1.2 ops r.2).map fun s => (r.1.1 :: s.1, s.2)
  | l, .shutdown :: ops, w =>
    let r := l.Shutdown w
    (run r.1.2 ops r.2).map fun s => (r.1.1 :: s.1, s.2)

/-- The lines handed to `Client.Handle` in a trace, in call order. -/
def handledLines : List Event → List String
  | [] => []
  | .handle _ _ _ line :: es => line :: handledLines es
  | _ :: es => handledLines es

/-- The `Handle` calls that pushing `lines` one after the other makes on the
client `c`, the clock standing at its reading number `k`. -/
def pushEvents (c : Client) (clock : Nat → Time) : Nat → List String → List Event
  | _, [] => []
  | k, line :: rest => .handle c labels (clock k) line :: pushEvents c clock (k + 1) rest

/-- The world in which `NewLokiLogger` calls `loki.NewDefaultConfig`: after the
startup notice, one clock reading and one token. -/
def atConfig (w : World) (endpoint : String) : World :=
  (uuid.New (time.Now (fmt.Println w "Sending logs to:" endpoint)).2).2

/-- The world in which `NewLokiLogger` calls `loki.New`. -/
def atClient (w : World) (endpoint : String) : World :=
  (loki.NewDefaultConfig (atConfig w endpoint) endpoint).2

/-- The clock reading taken by a construction started in `w`. -/
def constructionTime (w : World) : Time := (time.Now w).1

/-- The millisecond timestamp of a construction started in `w`: its time in
nanoseconds divided by 1,000,000, rounding toward zero as Go does. -/
def constructionMillis (w : World) : Int := Int.tdiv (constructionTime w).UnixNano 1000000

/-- The token drawn by a construction started in `w`. -/
def constructionToken (w : World) : String := (uuid.New w).1.String

/-- The instance that a construction started in `w` returns once the endpoint
is read and the client `c` is made. -/
def builtInstance (table : Char → Char) (w : World) (endpoint : String) (c : Client) :
    LokiLogger :=
  { client := some c
    functionName := strings.ToLower table (os.Getenv w "AWS_LAMBDA_FUNCTION_NAME")
    endpoint := endpoint
    key := strings.ToLower table (os.Getenv w "AWS_LAMBDA_FUNCTION_NAME") ++ "-" ++
      strconv.Itoa (constructionMillis w) ++ "-" ++ constructionToken w ++ ".log"
    logBuffer := some ⟨[], 10485760⟩ }

/-- Value of a run of decimal digit characters. -/
def decimalValue (cs : List Char) : Nat :=
  cs.foldl (fun a c => 10 * a + (c.toNat - 48)) 0

/-- Lower-case hexadecimal digit characters. -/
def isLowerHex (c : Char) : Bool :=
  c.isDigit || (97 ≤ c.toNat && c.toNat ≤ 102)

/-- The lower-case form of one character, stated case by case: an ASCII capital
letter goes to the letter 32 places on, any other ASCII character stays, and a
character above ASCII goes where the `unicode` tables send it. -/
def IsLowerOf (table : Char → Char) (a b : Char) : Prop :=
  (65 ≤ a.toNat ∧ a.toNat ≤ 90 → b.toNat = a.toNat + 32) ∧
  (a.toNat ≤ 127 → ¬(65 ≤ a.toNat ∧ a.toNat ≤ 90) → b = a) ∧
  (127 < a.toNat → b = table a)

instance (table : Char → Char) (a b : Char) : Decidable (IsLowerOf table a b) := by
  unfold IsLowerOf
  infer_instance

/-- Value of one hexadecimal digit character. -/
def hexVal (c : Char) : Nat :=
  if c.toNat < 58 then c.toNat - 48 else c.toNat - 87

/-- The bytes that a run of hexadecimal digits spells, two digits a byte. -/
def hexDecode : List Char → List Nat
  | hi :: lo :: rest => (16 * hexVal hi + hexVal lo) :: hexDecode rest
  | _ => []

/-! ## Sample worlds -/

/-- The lower-case mapping of the `unicode` tables on the Latin-1 capitals
U+00C0 to U+00DE (U+00D7, the multiplication sign, apart), which is all of it
that the samples use. -/
def sampleTable (c : Char) : Char :=
  if 192 ≤ c.toNat ∧ c.toNat ≤ 222 ∧ c.toNat ≠ 215 then Char.ofNat (c.toNat + 32) else c

/-- A clock reading in November 2023. -/
def sampleTime : Time := ⟨1700000000123456789, by decide, by decide⟩

/-- A clock reading one second later. -/
def laterTime : Time := ⟨1700000001123456789, by decide, by decide⟩

/-- A token. -/
def sampleUUID : UUID :=
  ⟨[0x12, 0x3e, 0x45, 0x67, 0xe8, 0x9b, 0x42, 0xd3, 0xa4, 0x56, 0x42, 0x66, 0x14, 0x17, 0x40, 0x00],
    by decide⟩

/-- A world with the endpoint set and no function name, in which both
constructors succeed and every `Handle` call fails. -/
def sampleWorld : World :=
  { env := [("LOKI_PUSH_ENDPOINT", "http://loki:3100/loki/api/v1/push")]
    clock := fun _ => sampleTime
    reads := 0
    tokens := fun _ => sampleUUID
    drawn := 0
    configOutcome := fun _ _ => .ok ⟨7⟩
    clientOutcome := fun _ _ => .ok ⟨1⟩
    handleOutcome := fun _ _ _ _ _ => some (.library 3 "connection refused")
    trace := [] }

/-- The client of the sample worlds. -/
def sampleClient : Client := ⟨1⟩

/-- The instance constructed in `sampleWorld`. -/
def sampleLogger : LokiLogger :=
  builtInstance sampleTable sampleWorld "http://loki:3100/loki/api/v1/push" sampleClient

/-- The world after the construction in `sampleWorld`. -/
def sampleWorldBuilt : World := (NewLokiLogger sampleTable sampleWorld).2

/-- The sample world with a function name and a later clock. -/
def namedWorld : World :=
  { sampleWorld with
    env := [("AWS_LAMBDA_FUNCTION_NAME", "MyFn"), ("LOKI_PUSH_ENDPOINT", "http://loki:3100")]
    clock := fun _ => laterTime }

/-- The sample world with the same function name as `namedWorld`. -/
def namedWorldEarlier : World :=
  { sampleWorld with
    env := [("AWS_LAMBDA_FUNCTION_NAME", "MyFn"), ("LOKI_PUSH_ENDPOINT", "http://loki:3100")] }

/-- A world whose endpoint is absent. -/
def bareWorld : World := { sampleWorld with env := [("AWS_LAMBDA_FUNCTION_NAME", "MyFn")] }

/-- A world whose endpoint is present and empty. -/
def emptyEndpointWorld : World := { sampleWorld with env := [("LOKI_PUSH_ENDPOINT", "")] }

/-- A world in which `loki.NewDefaultConfig` fails. -/
def badConfigWorld : World :=
  { sampleWorld with configOutcome := fun _ _ => .error (.library 1 "parse error") }

/-- A world in which `loki.New` fails. -/
def badClientWorld : World :=
  { sampleWorld with
    clientOutcome := fun _ _ => .error (.errorString "client needs target URL") }

/-- A world whose function name has capitals inside and outside ASCII. -/
def accentWorld : World :=
  { sampleWorld with
    env := [("AWS_LAMBDA_FUNCTION_NAME", "ÉCOLE-Fn_2"), ("LOKI_PUSH_ENDPOINT", "http://loki:3100")] }

/-! ## Auxiliary lemmas -/

theorem wrapSigned_64_of_range (x : Int) (lo : -9223372036854775808 ≤ x)
    (hi : x < 9223372036854775808) : wrapSigned 64 x = x := by
  unfold wrapSigned
  norm_num
  omega

theorem tdiv_million_range (x : Int) (lo : -9223372036854775808 ≤ x)
    (hi : x < 9223372036854775808) :
    -9223372036854775808 ≤ Int.tdiv x 1000000 ∧ Int.tdiv x 1000000 < 9223372036854775808 := by
  rcases le_or_lt 0 x with h | h
  · rw [Int.tdiv_eq_ediv h (by norm_num)]
    omega
  · have e : Int.tdiv x 1000000 = -((-x) / 1000000) := by
      have := Int.neg_tdiv (-x) 1000000
      rw [neg_neg] at this
      rw [this, Int.tdiv_eq_ediv (by omega) (by norm_num)]
    rw [e]
    omega

theorem goInt_millis (t : Time) :
    goInt (Int.tdiv t.UnixNano 1000000) = Int.tdiv t.UnixNano 1000000 := by
  have h := tdiv_million_range t.unixNano t.lo t.hi
  exact wrapSigned_64_of_range _ h.1 h.2

theorem digitChar_isDigit : ∀ d, d < 10 → (digitChar d).isDigit = true := by
  decide

theorem digitChar_toNat : ∀ d, d < 10 → (digitChar d).toNat = 48 + d := by
  decide

theorem decimalDigits_value : ∀ fuel n, n < fuel → decimalValue (decimalDigits fuel n) = n := by
  intro fuel
  induction fuel with
  | zero => intro n h; omega
  | succ f ih =>
    intro n h
    unfold decimalDigits
    split
    · rename_i h10
      simp [decimalValue, digitChar_toNat n h10]
    · rename_i h10
      have hq : n / 10 < f := by omega
      have hr : n % 10 < 10 := Nat.mod_lt _ (by norm_num)
      have := ih (n / 10) hq
      simp only [decimalValue] at this
      simp only [decimalValue, List.foldl_append, List.foldl_cons, List.foldl_nil, this,
        digitChar_toNat _ hr]
      omega

theorem decimalDigits_ne_nil : ∀ fuel n, 0 < fuel → decimalDigits fuel n ≠ [] := by
  intro fuel n h
  cases fuel with
  | zero => omega
  | succ f =>
    unfold decimalDigits
    split <;> simp

theorem decimalDigits_isDigit : ∀ fuel n c, c ∈ decimalDigits fuel n → c.isDigit = true := by
  intro fuel
  induction fuel with
  | zero => intro n c h; simp [decimalDigits] at h
  | succ f ih =>
    intro n c h
    unfold decimalDigits at h
    split at h
    · rename_i h10
      simp at h
      rw [h]; exact digitChar_isDigit n h10
    · simp at h
      rcases h with h | h
      · exact ih _ _ h
      · rw [h]; exact digitChar_isDigit _ (Nat.mod_lt _ (by norm_num))

theorem decimal_value (n : Nat) : decimalValue (decimal n) = n :=
  decimalDigits_value (n + 1) n (Nat.lt_succ_self n)

theorem decimal_ne_nil (n : Nat) : decimal n ≠ [] :=
  decimalDigits_ne_nil (n + 1) n (Nat.succ_pos n)

theorem decimal_isDigit (n : Nat) (c : Char) (h : c ∈ decimal n) : c.isDigit = true :=
  decimalDigits_isDigit (n + 1) n c h

theorem decimal_injective {a b : Nat} (h : decimal a = decimal b) : a = b := by
  have := congrArg decimalValue h
  simpa [decimal_value] using this

theorem decimal_ne_minus (a b : Nat) : '-' :: decimal a ≠ decimal b := by
  intro h
  have hm : '-' ∈ decimal b := by rw [← h]; simp
  have := decimal_isDigit b _ hm
  exact absurd this (by decide)

theorem mk_inj {a b : List Char} (h : String.mk a = String.mk b) : a = b :=
  congrArg String.data h

theorem Itoa_injective {i j : Int} (h : strconv.Itoa i = strconv.Itoa j) : i = j := by
  unfold strconv.Itoa at h
  split at h <;> split at h
  · have h1 := mk_inj h
    have := decimal_injective (List.cons.inj h1).2
    omega
  · exact absurd (mk_inj h) (decimal_ne_minus _ _)
  · exact absurd (mk_inj h).symm (decimal_ne_minus _ _)
  · have := decimal_injective (mk_inj h)
    omega

theorem hexEncode_length (bs : List (Fin 256)) : (hexEncode bs).length = 2 * bs.length := by
  induction bs with
  | nil => rfl
  | cons b bs ih => simp [hexEncode, ih]; omega

theorem UUID_String_length (u : UUID) : u.String.length = 36 := by
  simp [UUID.String, String.length, hexEncode_length, u.size]

theorem key_parts_injective (f t1 t2 u1 u2 : String) (hu : u1.length = u2.length)
    (h : f ++ "-" ++ t1 ++ "-" ++ u1 ++ ".log" = f ++ "-" ++ t2 ++ "-" ++ u2 ++ ".log") :
    t1 = t2 ∧ u1 = u2 := by
  have hu1 : u1.data.length = u2.data.length := hu
  have hd := congrArg String.data h
  simp only [String.data_append, List.append_assoc] at hd
  have h1 := List.append_cancel_left (List.append_cancel_left hd)
  have h2 := List.append_inj' h1 (by simp only [List.length_append, hu1])
  have h3 := List.append_cancel_left h2.2
  have h4 := List.append_cancel_right h3
  exact ⟨String.ext h2.1, String.ext h4⟩

theorem NewLokiLogger_absent {table : Char → Char} {w : World} (h : os.LookupEnv w "LOKI_PUSH_ENDPOINT" = none) :
    NewLokiLogger table w =
      ((none, some (errors.New "environment variable LOKI_PUSH_ENDPOINT is not set")), w) := by
  unfold NewLokiLogger
  simp only [h]

theorem NewLokiLogger_config_fails {table : Char → Char} {w : World} {endpoint : String} {e : GoError}
    (h : os.LookupEnv w "LOKI_PUSH_ENDPOINT" = some endpoint)
    (hc : (loki.NewDefaultConfig (atConfig w endpoint) endpoint).1 = .error e) :
    NewLokiLogger table w =
      ((none, some (fmt.Errorf "error getting default config: " e)), atClient w endpoint) := by
  unfold NewLokiLogger
  simp only [h]
  unfold atConfig at hc
  simp only [hc]
  rfl

theorem NewLokiLogger_client_fails {table : Char → Char} {w : World} {endpoint : String}
    {cfg : Config} {e : GoError}
    (h : os.LookupEnv w "LOKI_PUSH_ENDPOINT" = some endpoint)
    (hc : (loki.NewDefaultConfig (atConfig w endpoint) endpoint).1 = .ok cfg)
    (hn : (loki.New (atClient w endpoint) cfg).1 = .error e) :
    NewLokiLogger table w =
      ((none, some (fmt.Errorf "error creating loki client: " e)),
        (loki.New (atClient w endpoint) cfg).2) := by
  unfold NewLokiLogger
  simp only [h]
  unfold atClient atConfig at hn
  unfold atConfig at hc
  simp only [hc, hn]
  rfl

theorem NewLokiLogger_succeeds {table : Char → Char} {w : World} {endpoint : String}
    {cfg : Config} {c : Client}
    (h : os.LookupEnv w "LOKI_PUSH_ENDPOINT" = some endpoint)
    (hc : (loki.NewDefaultConfig (atConfig w endpoint) endpoint).1 = .ok cfg)
    (hn : (loki.New (atClient w endpoint) cfg).1 = .ok c) :
    NewLokiLogger table w =
      ((some (builtInstance table w endpoint c), none),
        (loki.New (atClient w endpoint) cfg).2) := by
  unfold NewLokiLogger
  simp only [h]
  unfold atClient atConfig at hn
  unfold atConfig at hc
  simp only [hc, hn]
  have ht : (time.Now (fmt.Println w "Sending logs to:" endpoint)).1 = constructionTime w := rfl
  have hu : (uuid.New (time.Now (fmt.Println w "Sending logs to:" endpoint)).2).1.String
      = constructionToken w := rfl
  simp only [ht, hu, goInt_millis, builtInstance, constructionMillis]
  rfl

/-- The four ways a construction can end. -/
theorem NewLokiLogger_cases (table : Char → Char) (w : World) :
    (os.LookupEnv w "LOKI_PUSH_ENDPOINT" = none ∧
      NewLokiLogger table w =
        ((none, some (errors.New "environment variable LOKI_PUSH_ENDPOINT is not set")), w)) ∨
    (∃ endpoint e, os.LookupEnv w "LOKI_PUSH_ENDPOINT" = some endpoint ∧
      (loki.NewDefaultConfig (atConfig w endpoint) endpoint).1 = .error e ∧
      NewLokiLogger table w =
        ((none, some (fmt.Errorf "error getting default config: " e)), atClient w endpoint)) ∨
    (∃ endpoint cfg e, os.LookupEnv w "LOKI_PUSH_ENDPOINT" = some endpoint ∧
      (loki.NewDefaultConfig (atConfig w endpoint) endpoint).1 = .ok cfg ∧
      (loki.New (atClient w endpoint) cfg).1 = .error e ∧
      NewLokiLogger table w =
        ((none, some (fmt.Errorf "error creating loki client: " e)),
          (loki.New (atClient w endpoint) cfg).2)) ∨
    (∃ endpoint cfg c, os.LookupEnv w "LOKI_PUSH_ENDPOINT" = some endpoint ∧
      (loki.NewDefaultConfig (atConfig w endpoint) endpoint).1 = .ok cfg ∧
      (loki.New (atClient w endpoint) cfg).1 = .ok c ∧
      NewLokiLogger table w =
        ((some (builtInstance table w endpoint c), none),
          (loki.New (atClient w endpoint) cfg).2)) := by
  cases h : os.LookupEnv w "LOKI_PUSH_ENDPOINT" with
  | none => exact Or.inl ⟨rfl, NewLokiLogger_absent h⟩
  | some endpoint =>
    right
    cases hc : (loki.NewDefaultConfig (atConfig w endpoint) endpoint).1 with
    | error e => exact Or.inl ⟨endpoint, e, rfl, hc, NewLokiLogger_config_fails h hc⟩
    | ok cfg =>
      right
      cases hn : (loki.New (atClient w endpoint) cfg).1 with
      | error e => exact Or.inl ⟨endpoint, cfg, e, rfl, hc, hn, NewLokiLogger_client_fails h hc hn⟩
      | ok c => exact Or.inr ⟨endpoint, cfg, c, rfl, hc, hn, NewLokiLogger_succeeds h hc hn⟩

theorem NewLokiLogger_built {table : Char → Char} {w w1 : World} {l : LokiLogger}
    (h : NewLokiLogger table w = ((some l, none), w1)) :
    ∃ endpoint c, os.LookupEnv w "LOKI_PUSH_ENDPOINT" = some endpoint ∧
      l = builtInstance table w endpoint c := by
  rcases NewLokiLogger_cases table w with ⟨_, e⟩ | ⟨_, _, _, _, e⟩ | ⟨_, _, _, _, _, _, e⟩ |
      ⟨endpoint, cfg, c, he, _, _, e⟩
  · rw [e] at h; simp at h
  · rw [e] at h; simp at h
  · rw [e] at h; simp at h
  · rw [e] at h
    simp only [Prod.mk.injEq, Option.some.injEq, and_true] at h
    exact ⟨endpoint, c, he, h.1.symm⟩

theorem PushLog_of_client {l : LokiLogger} {c : Client} (hc : l.client = some c)
    (line : String) (w : World) :
    l.PushLog line w =
      some ((w.handleOutcome w.trace c labels (w.clock w.reads) line, l),
        { w with
          reads := w.reads + 1
          trace := w.trace ++ [Event.handle c labels (w.clock w.reads) line] }) := by
  unfold LokiLogger.PushLog
  rw [hc]
  rfl

theorem handledLines_append (xs ys : List Event) :
    handledLines (xs ++ ys) = handledLines xs ++ handledLines ys := by
  induction xs with
  | nil => rfl
  | cons e es ih => cases e <;> simp [handledLines, ih]

theorem handledLines_pushEvents (c : Client) (clock : Nat → Time) (lines : List String) :
    ∀ k, handledLines (pushEvents c clock k lines) = lines := by
  induction lines with
  | nil => intro k; rfl
  | cons line rest ih => intro k; simp [pushEvents, handledLines, ih]

theorem pushEvents_length (c : Client) (clock : Nat → Time) (lines : List String) :
    ∀ k, (pushEvents c clock k lines).length = lines.length := by
  induction lines with
  | nil => intro k; rfl
  | cons line rest ih => intro k; simp [pushEvents, ih]

/-- A caller never panics on an instance with a client, and gets the same
instance back with one result a call. -/
theorem run_of_client {l : LokiLogger} {c : Client} (hc : l.client = some c) (ops : List Op) :
    ∀ w, ∃ errs w1, run l ops w = some (errs, l, w1) ∧ errs.length = ops.length := by
  induction ops with
  | nil => intro w; exact ⟨[], w, rfl, rfl⟩
  | cons op ops ih =>
    intro w
    cases op with
    | push line =>
      obtain ⟨errs, w1, h1, h2⟩ := ih
        { w with
          reads := w.reads + 1
          trace := w.trace ++ [Event.handle c labels (w.clock w.reads) line] }
      refine ⟨w.handleOutcome w.trace c labels (w.clock w.reads) line :: errs, w1, ?_, ?_⟩
      · simp only [run, PushLog_of_client hc, h1, Option.map_some']
      · simp [h2]
    | shutdown =>
      obtain ⟨errs, w1, h1, h2⟩ := ih w
      refine ⟨none :: errs, w1, ?_, ?_⟩
      · simp only [run, LokiLogger.Shutdown, h1, Option.map_some']
      · simp [h2]

theorem run_pushes {l : LokiLogger} {c : Client} (hc : l.client = some c) (lines : List String) :
    ∀ w, ∃ errs, run l (lines.map Op.push) w =
        some (errs, l,
          { w with
            reads := w.reads + lines.length
            trace := w.trace ++ pushEvents c w.clock w.reads lines }) ∧
      errs.length = lines.length := by
  induction lines with
  | nil => intro w; exact ⟨[], by simp [run, pushEvents], rfl⟩
  | cons line rest ih =>
    intro w
    obtain ⟨errs, h1, h2⟩ := ih
      { w with
        reads := w.reads + 1
        trace := w.trace ++ [Event.handle c labels (w.clock w.reads) line] }
    refine ⟨w.handleOutcome w.trace c labels (w.clock w.reads) line :: errs, ?_, ?_⟩
    · simp only [List.map_cons, run, PushLog_of_client hc, h1, Option.map_some', pushEvents,
        List.length_cons, List.append_assoc, List.singleton_append]
      have e : w.reads + 1 + rest.length = w.reads + (rest.length + 1) := by omega
      rw [e]
    · simp [h2]

theorem run_shutdowns (l : LokiLogger) (w : World) (n : Nat) :
    run l (List.replicate n Op.shutdown) w = some (List.replicate n none, l, w) := by
  induction n with
  | zero => rfl
  | succ n ih => simp only [List.replicate_succ, run, LokiLogger.Shutdown, ih, Option.map_some']

theorem wrap_message_ne (lead : String) (x : String) (msg : String)
    (hl : 2 ≤ lead.data.length) (hne : lead.data.take 2 ≠ msg.data.take 2) :
    lead ++ x ≠ msg := by
  intro h
  have hd := congrArg (fun s => s.data.take 2) h
  simp only [String.data_append] at hd
  rw [List.take_append_of_le_length hl] at hd
  exact hne hd

theorem hexDigit_isLowerHex : ∀ n, n < 16 → isLowerHex (hexDigit n) = true := by
  decide

theorem hexEncode_isLowerHex (bs : List (Fin 256)) :
    ∀ c ∈ hexEncode bs, isLowerHex c = true := by
  induction bs with
  | nil => intro c h; simp [hexEncode] at h
  | cons b bs ih =>
    intro c h
    simp only [hexEncode, List.mem_cons] at h
    rcases h with h | h | h
    · rw [h]; exact hexDigit_isLowerHex _ (by omega)
    · rw [h]; exact hexDigit_isLowerHex _ (Nat.mod_lt _ (by norm_num))
    · exact ih c h

theorem lowerCapital_toNat : ∀ n, n < 91 → 65 ≤ n → (Char.ofNat (n + 32)).toNat = n + 32 := by
  decide

theorem unicode_ToLower_isLowerOf (table : Char → Char) (a : Char) :
    IsLowerOf table a (unicode.ToLower table a) := by
  unfold IsLowerOf unicode.ToLower
  refine ⟨?_, ?_, ?_⟩
  · intro h
    rw [if_pos (by omega), if_pos h]
    exact lowerCapital_toNat _ (by omega) h.1
  · intro h1 h2
    rw [if_pos h1, if_neg h2]
  · intro h
    rw [if_neg (by omega)]

theorem map_ToLower_isLowerOf (table : Char → Char) (cs : List Char) :
    List.Forall₂ (IsLowerOf table) cs (cs.map (unicode.ToLower table)) := by
  induction cs with
  | nil => exact List.Forall₂.nil
  | cons c cs ih => exact List.Forall₂.cons (unicode_ToLower_isLowerOf table c) ih

theorem digitChar_ne_zero : ∀ d, d < 10 → 0 < d → digitChar d ≠ '0' := by
  decide

theorem decimalDigits_head : ∀ fuel n, n < fuel → 0 < n →
    ∃ c rest, decimalDigits fuel n = c :: rest ∧ c ≠ '0' := by
  intro fuel
  induction fuel with
  | zero => intro n h; omega
  | succ f ih =>
    intro n h hpos
    unfold decimalDigits
    split
    · rename_i h10
      exact ⟨_, [], rfl, digitChar_ne_zero n h10 hpos⟩
    · obtain ⟨c, rest, hc, hne⟩ := ih (n / 10) (by omega) (by omega)
      exact ⟨c, rest ++ [digitChar (n % 10)], by rw [hc]; rfl, hne⟩

theorem decimal_canonical (n : Nat) : decimal n = ['0'] ∨ (decimal n).head? ≠ some '0' := by
  rcases Nat.eq_zero_or_pos n with h | h
  · left; rw [h]; rfl
  · right
    obtain ⟨c, rest, hc, hne⟩ := decimalDigits_head (n + 1) n (Nat.lt_succ_self n) h
    unfold decimal
    rw [hc]
    simpa using hne

theorem Itoa_eq (i : Int) :
    strconv.Itoa i = String.mk (if i < 0 then '-' :: decimal i.natAbs else decimal i.natAbs) := by
  unfold strconv.Itoa
  split <;> rfl

theorem hexVal_hexDigit : ∀ n, n < 16 → hexVal (hexDigit n) = n := by
  decide

theorem hexDecode_hexEncode (bs : List (Fin 256)) :
    hexDecode (hexEncode bs) = bs.map Fin.val := by
  induction bs with
  | nil => rfl
  | cons b bs ih =>
    simp only [hexEncode, hexDecode, List.map_cons, ih,
      hexVal_hexDigit _ (show b.val / 16 < 16 by omega),
      hexVal_hexDigit _ (Nat.mod_lt _ (by norm_num : 0 < 16))]
    congr 1
    omega

theorem hexEncode_append (xs ys : List (Fin 256)) :
    hexEncode (xs ++ ys) = hexEncode xs ++ hexEncode ys := by
  induction xs with
  | nil => rfl
  | cons x xs ih => simp [hexEncode, ih]

theorem uuid_groups (bs : List (Fin 256)) :
    bs.take 4 ++ ((bs.drop 4).take 2 ++ ((bs.drop 6).take 2 ++
      ((bs.drop 8).take 2 ++ bs.drop 10))) = bs := by
  have e10 : bs.drop 10 = (bs.drop 8).drop 2 := by rw [List.drop_drop]
  have e8 : bs.drop 8 = (bs.drop 6).drop 2 := by rw [List.drop_drop]
  have e6 : bs.drop 6 = (bs.drop 4).drop 2 := by rw [List.drop_drop]
  rw [e10, List.take_append_drop, e8, List.take_append_drop, e6, List.take_append_drop,
    List.take_append_drop]

/-! ## Construction: the configuration error -/

/-- Claim C1: in every world, `NewLokiLogger` returns a nil instance together
with the error made by `errors.New` with the message
"environment variable LOKI_PUSH_ENDPOINT is not set" exactly when
`LOKI_PUSH_ENDPOINT` is absent from the environment, and no other error it
returns carries that message; when the variable is absent the world is left as
it was, so neither constructor of the transport client is called; a variable
that is present and empty does not give this error. -/
theorem NewLokiLogger_configuration_error_iff (table : Char → Char) (w : World) :
    ((NewLokiLogger table w).1 =
        (none, some (errors.New "environment variable LOKI_PUSH_ENDPOINT is not set")) ↔
      os.LookupEnv w "LOKI_PUSH_ENDPOINT" = none) ∧
    ((∃ e, (NewLokiLogger table w).1.2 = some e ∧
        e.Error = "environment variable LOKI_PUSH_ENDPOINT is not set") ↔
      os.LookupEnv w "LOKI_PUSH_ENDPOINT" = none) ∧
    (os.LookupEnv w "LOKI_PUSH_ENDPOINT" = none → (NewLokiLogger table w).2 = w) ∧
    (os.LookupEnv w "LOKI_PUSH_ENDPOINT" = some "" →
      (NewLokiLogger table w).1 ≠
        (none, some (errors.New "environment variable LOKI_PUSH_ENDPOINT is not set"))) := by
  have key : (∃ e, (NewLokiLogger table w).1.2 = some e ∧
        e.Error = "environment variable LOKI_PUSH_ENDPOINT is not set") →
      os.LookupEnv w "LOKI_PUSH_ENDPOINT" = none := by
    rintro ⟨e, he, hm⟩
    rcases NewLokiLogger_cases table w with ⟨h, _⟩ | ⟨_, e1, _, _, r⟩ | ⟨_, _, e1, _, _, _, r⟩ |
        ⟨_, _, _, _, _, _, r⟩
    · exact h
    · rw [r] at he
      simp only [Option.some.injEq] at he
      rw [← he] at hm
      exact absurd hm (wrap_message_ne _ _ _ (by decide) (by decide))
    · rw [r] at he
      simp only [Option.some.injEq] at he
      rw [← he] at hm
      exact absurd hm (wrap_message_ne _ _ _ (by decide) (by decide))
    · rw [r] at he
      simp at he
  have back : os.LookupEnv w "LOKI_PUSH_ENDPOINT" = none →
      (NewLokiLogger table w).1 =
        (none, some (errors.New "environment variable LOKI_PUSH_ENDPOINT is not set")) := by
    intro h
    rw [NewLokiLogger_absent h]
  have fwd : (NewLokiLogger table w).1 =
        (none, some (errors.New "environment variable LOKI_PUSH_ENDPOINT is not set")) →
      os.LookupEnv w "LOKI_PUSH_ENDPOINT" = none := by
    intro h
    exact key ⟨_, congrArg Prod.snd h, rfl⟩
  refine ⟨⟨fwd, back⟩, ⟨key, ?_⟩, ?_, ?_⟩
  · intro h
    exact ⟨_, congrArg Prod.snd (back h), rfl⟩
  · intro h
    rw [NewLokiLogger_absent h]
  · intro h habs
    have := fwd habs
    rw [h] at this
    exact absurd this (by simp)

/-- Witness of C1: a world without the endpoint gets the configuration error and
stays as it was, and a world with an empty endpoint does not get it. -/
theorem NewLokiLogger_configuration_error_iff_witness :
    (NewLokiLogger sampleTable bareWorld).1 =
        (none, some (errors.New "environment variable LOKI_PUSH_ENDPOINT is not set")) ∧
    (NewLokiLogger sampleTable bareWorld).2 = bareWorld ∧
    (NewLokiLogger sampleTable emptyEndpointWorld).1 ≠
        (none, some (errors.New "environment variable LOKI_PUSH_ENDPOINT is not set")) :=
  ⟨(NewLokiLogger_configuration_error_iff sampleTable bareWorld).1.2 rfl,
    (NewLokiLogger_configuration_error_iff sampleTable bareWorld).2.2.1 rfl,
    (NewLokiLogger_configuration_error_iff sampleTable emptyEndpointWorld).2.2.2 rfl⟩

/-! ## Construction: failures of the transport client -/

/-- Claim C4: when `LOKI_PUSH_ENDPOINT` is present and `loki.NewDefaultConfig`
fails with cause `e`, or it succeeds and `loki.New` fails with cause `e`,
`NewLokiLogger` returns a nil instance and an error whose `Unwrap` is exactly `e`
and whose message is "error getting default config: ", respectively
"error creating loki client: ", followed by the message of `e`. -/
theorem NewLokiLogger_wraps_transport_cause (table : Char → Char) (w : World)
    (endpoint : String)
    (h : os.LookupEnv w "LOKI_PUSH_ENDPOINT" = some endpoint) :
    (∀ e, (loki.NewDefaultConfig (atConfig w endpoint) endpoint).1 = .error e →
      ∃ err, (NewLokiLogger table w).1 = (none, some err) ∧ err.Unwrap = some e ∧
        err.Error = "error getting default config: " ++ e.Error) ∧
    (∀ cfg e, (loki.NewDefaultConfig (atConfig w endpoint) endpoint).1 = .ok cfg →
      (loki.New (atClient w endpoint) cfg).1 = .error e →
      ∃ err, (NewLokiLogger table w).1 = (none, some err) ∧ err.Unwrap = some e ∧
        err.Error = "error creating loki client: " ++ e.Error) := by
  constructor
  · intro e hc
    exact ⟨fmt.Errorf "error getting default config: " e,
      by rw [NewLokiLogger_config_fails h hc], rfl, rfl⟩
  · intro cfg e hc hn
    exact ⟨fmt.Errorf "error creating loki client: " e,
      by rw [NewLokiLogger_client_fails h hc hn], rfl, rfl⟩

/-- Witness of C4: one world in which the default configuration fails and one
in which the client constructor fails. -/
theorem NewLokiLogger_wraps_transport_cause_witness :
    (∃ err, (NewLokiLogger sampleTable badConfigWorld).1 = (none, some err) ∧
      err.Unwrap = some (GoError.library 1 "parse error") ∧
      err.Error = "error getting default config: " ++ "parse error") ∧
    (∃ err, (NewLokiLogger sampleTable badClientWorld).1 = (none, some err) ∧
      err.Unwrap = some (GoError.errorString "client needs target URL") ∧
      err.Error = "error creating loki client: " ++ "client needs target URL") :=
  ⟨(NewLokiLogger_wraps_transport_cause sampleTable badConfigWorld "http://loki:3100/loki/api/v1/push"
      rfl).1 _ rfl,
    (NewLokiLogger_wraps_transport_cause sampleTable badClientWorld "http://loki:3100/loki/api/v1/push"
      rfl).2 ⟨7⟩ _ rfl rfl⟩

/-! ## Construction: the stream key -/

/-- Claim C6: on successful construction the key is the lower-cased value of
`AWS_LAMBDA_FUNCTION_NAME` as it stands in the environment (empty when absent;
lower-cased character by character: ASCII capitals to small letters, other
ASCII characters kept, characters above ASCII as the `unicode` tables say),
"-", the decimal text of the construction time in nanoseconds divided by
1,000,000 (a minus sign when negative, then digits without a leading zero whose
value is the magnitude), "-", the 36-character canonical token (groups of 8, 4,
4, 4 and 12 lower-case hexadecimal digits that spell the sixteen bytes drawn
from the generator, joined by "-") and ".log"; with no function name and a
construction time at or after the epoch the key is "-", then a non-empty run
of decimal digits whose value is the millisecond timestamp, then "-", the
token and ".log". -/
theorem stream_key_format (table : Char → Char) (w w1 : World) (l : LokiLogger)
    (h : NewLokiLogger table w = ((some l, none), w1)) :
    l.key = strings.ToLower table (os.Getenv w "AWS_LAMBDA_FUNCTION_NAME") ++ "-" ++
        strconv.Itoa (constructionMillis w) ++ "-" ++ constructionToken w ++ ".log" ∧
    os.Getenv w "AWS_LAMBDA_FUNCTION_NAME" =
      (w.env.lookup "AWS_LAMBDA_FUNCTION_NAME").getD "" ∧
    l.functionName = strings.ToLower table (os.Getenv w "AWS_LAMBDA_FUNCTION_NAME") ∧
    List.Forall₂ (IsLowerOf table)
      ((w.env.lookup "AWS_LAMBDA_FUNCTION_NAME").getD "").data l.functionName.data ∧
    (w.env.lookup "AWS_LAMBDA_FUNCTION_NAME" = none → l.functionName = "") ∧
    constructionMillis w = Int.tdiv (w.clock w.reads).unixNano 1000000 ∧
    (constructionToken w).length = 36 ∧
    (∃ ds : List Char, ds ≠ [] ∧ (∀ x ∈ ds, x.isDigit = true) ∧
      (ds = ['0'] ∨ ds.head? ≠ some '0') ∧
      decimalValue ds = (Int.tdiv (w.clock w.reads).unixNano 1000000).natAbs ∧
      strconv.Itoa (constructionMillis w) =
        String.mk (if Int.tdiv (w.clock w.reads).unixNano 1000000 < 0 then '-' :: ds else ds) ∧
      ((w.env.lookup "AWS_LAMBDA_FUNCTION_NAME").getD "" = "" →
        0 ≤ (w.clock w.reads).unixNano →
        (decimalValue ds : Int) = (w.clock w.reads).unixNano / 1000000 ∧
        l.key = "-" ++ String.mk ds ++ "-" ++ constructionToken w ++ ".log")) ∧
    (∃ a b c d e : List Char,
      a.length = 8 ∧ b.length = 4 ∧ c.length = 4 ∧ d.length = 4 ∧ e.length = 12 ∧
      (∀ x ∈ a ++ b ++ c ++ d ++ e, isLowerHex x = true) ∧
      hexDecode (a ++ b ++ c ++ d ++ e) = (w.tokens w.drawn).bytes.map Fin.val ∧
      constructionToken w =
        String.mk (a ++ '-' :: (b ++ '-' :: (c ++ '-' :: (d ++ '-' :: e))))) := by
  obtain ⟨endpoint, c, _, hl⟩ := NewLokiLogger_built h
  have hname : os.Getenv w "AWS_LAMBDA_FUNCTION_NAME" =
      (w.env.lookup "AWS_LAMBDA_FUNCTION_NAME").getD "" := rfl
  have hfn : l.functionName = strings.ToLower table (os.Getenv w "AWS_LAMBDA_FUNCTION_NAME") := by
    rw [hl]; rfl
  have hkey : l.key = strings.ToLower table (os.Getenv w "AWS_LAMBDA_FUNCTION_NAME") ++ "-" ++
      strconv.Itoa (constructionMillis w) ++ "-" ++ constructionToken w ++ ".log" := by
    rw [hl]; rfl
  refine ⟨hkey, hname, hfn, ?_, ?_, rfl, UUID_String_length _, ?_, ?_⟩
  · rw [hfn, hname]
    exact map_ToLower_isLowerOf table _
  · intro hn
    rw [hfn, hname, hn]
    rfl
  · have hms : constructionMillis w = Int.tdiv (w.clock w.reads).unixNano 1000000 := rfl
    refine ⟨decimal (constructionMillis w).natAbs, decimal_ne_nil _, decimal_isDigit _,
      decimal_canonical _, ?_, ?_, ?_⟩
    · rw [decimal_value, hms]
    · rw [Itoa_eq, hms]
    · intro hn ht
      have hdiv : constructionMillis w = (w.clock w.reads).unixNano / 1000000 :=
        hms.trans (Int.tdiv_eq_ediv ht (by norm_num))
      have hnn : 0 ≤ constructionMillis w := by rw [hms]; exact Int.tdiv_nonneg ht (by norm_num)
      refine ⟨?_, ?_⟩
      · rw [decimal_value, ← hdiv]
        omega
      · rw [hkey, hname, hn, Itoa_eq, if_neg (by omega)]
        rfl
  · have hs := (w.tokens w.drawn).size
    refine ⟨hexEncode ((w.tokens w.drawn).bytes.take 4),
      hexEncode (((w.tokens w.drawn).bytes.drop 4).take 2),
      hexEncode (((w.tokens w.drawn).bytes.drop 6).take 2),
      hexEncode (((w.tokens w.drawn).bytes.drop 8).take 2),
      hexEncode ((w.tokens w.drawn).bytes.drop 10), ?_, ?_, ?_, ?_, ?_, ?_, ?_, rfl⟩
    · simp [hexEncode_length, hs]
    · simp [hexEncode_length, hs]
    · simp [hexEncode_length, hs]
    · simp [hexEncode_length, hs]
    · simp [hexEncode_length, hs]
    · intro x hx
      simp only [List.mem_append] at hx
      rcases hx with (((hx | hx) | hx) | hx) | hx <;> exact hexEncode_isLowerHex _ x hx
    · simp only [← hexEncode_append, List.append_assoc, uuid_groups, hexDecode_hexEncode]

/-- Witness of C6: the key of a function named with capitals inside and outside
ASCII, and the key of a construction with no function name. -/
theorem stream_key_format_witness :
    (NewLokiLogger sampleTable accentWorld).1 =
      (some (builtInstance sampleTable accentWorld "http://loki:3100" sampleClient), none) ∧
    (builtInstance sampleTable accentWorld "http://loki:3100" sampleClient).key =
      "école-fn_2-1700000000123-123e4567-e89b-42d3-a456-426614174000.log" ∧
    List.Forall₂ (IsLowerOf sampleTable) "ÉCOLE-Fn_2".data "école-fn_2".data ∧
    NewLokiLogger sampleTable sampleWorld = ((some sampleLogger, none), sampleWorldBuilt) ∧
    sampleLogger.key = "-1700000000123-123e4567-e89b-42d3-a456-426614174000.log" ∧
    ∃ ds : List Char, ds ≠ [] ∧ (∀ x ∈ ds, x.isDigit = true) ∧
      (decimalValue ds : Int) = 1700000000123456789 / 1000000 ∧
      sampleLogger.key = "-" ++ String.mk ds ++ "-" ++ constructionToken sampleWorld ++ ".log" := by
  obtain ⟨ds, h1, h2, _, _, _, h6⟩ :=
    (stream_key_format sampleTable sampleWorld sampleWorldBuilt sampleLogger
      rfl).2.2.2.2.2.2.2.1
  exact ⟨rfl, by decide,
    (stream_key_format sampleTable accentWorld (NewLokiLogger sampleTable accentWorld).2
      (builtInstance sampleTable accentWorld "http://loki:3100" sampleClient) rfl).2.2.2.1,
    rfl, by decide, ds, h1, h2, h6 rfl (by decide)⟩

/-- Claim C7: for two successful constructions with the same function name, the
keys are equal exactly when the millisecond timestamps are equal and the tokens
are equal; so the keys differ as soon as the timestamps differ or the tokens
differ, and in particular when the constructions are, at or after the epoch, a
millisecond or more apart. -/
theorem stream_key_injective (table : Char → Char) (wa wa1 wb wb1 : World)
    (la lb : LokiLogger)
    (ha : NewLokiLogger table wa = ((some la, none), wa1))
    (hb : NewLokiLogger table wb = ((some lb, none), wb1))
    (hname : os.Getenv wa "AWS_LAMBDA_FUNCTION_NAME" = os.Getenv wb "AWS_LAMBDA_FUNCTION_NAME") :
    (la.key = lb.key ↔
      constructionMillis wa = constructionMillis wb ∧
        constructionToken wa = constructionToken wb) ∧
    (constructionMillis wa ≠ constructionMillis wb ∨
        constructionToken wa ≠ constructionToken wb → la.key ≠ lb.key) ∧
    (0 ≤ (constructionTime wa).UnixNano →
      (constructionTime wa).UnixNano + 1000000 ≤ (constructionTime wb).UnixNano →
      la.key ≠ lb.key) := by
  obtain ⟨_, _, _, hla⟩ := NewLokiLogger_built ha
  obtain ⟨_, _, _, hlb⟩ := NewLokiLogger_built hb
  have hiff : la.key = lb.key ↔
      constructionMillis wa = constructionMillis wb ∧
        constructionToken wa = constructionToken wb := by
    rw [hla, hlb]
    simp only [builtInstance, hname]
    constructor
    · intro hk
      have hp := key_parts_injective _ _ _ _ _
        ((UUID_String_length _).trans (UUID_String_length _).symm) hk
      exact ⟨Itoa_injective hp.1, hp.2⟩
    · rintro ⟨hm, ht⟩
      rw [hm, ht]
  refine ⟨hiff, ?_, ?_⟩
  · intro hne hk
    have := hiff.1 hk
    rcases hne with hne | hne
    · exact hne this.1
    · exact hne this.2
  · intro h0 hgap hk
    have hm := (hiff.1 hk).1
    unfold constructionMillis at hm
    rw [Int.tdiv_eq_ediv h0 (by norm_num),
      Int.tdiv_eq_ediv (le_trans h0 (by omega)) (by norm_num)] at hm
    omega

/-- Witness of C7: two constructions of the function `MyFn` one second apart. -/
theorem stream_key_injective_witness :
    NewLokiLogger sampleTable namedWorldEarlier =
      ((some (builtInstance sampleTable namedWorldEarlier "http://loki:3100" sampleClient), none),
        (NewLokiLogger sampleTable namedWorldEarlier).2) ∧
    NewLokiLogger sampleTable namedWorld =
      ((some (builtInstance sampleTable namedWorld "http://loki:3100" sampleClient), none),
        (NewLokiLogger sampleTable namedWorld).2) ∧
    (builtInstance sampleTable namedWorldEarlier "http://loki:3100" sampleClient).key ≠
      (builtInstance sampleTable namedWorld "http://loki:3100" sampleClient).key :=
  ⟨rfl, rfl,
    (stream_key_injective sampleTable namedWorldEarlier (NewLokiLogger sampleTable namedWorldEarlier).2
      namedWorld (NewLokiLogger sampleTable namedWorld).2 _ _ rfl rfl rfl).2.1 (Or.inl (by decide))⟩

/-! ## Construction: success or failure, never both -/

/-- Claim C5: in every world `NewLokiLogger` returns either an instance and a
nil error, or a nil instance and an error; every instance it returns has a
non-nil client, and after any sequence of `PushLog` and `Shutdown` calls, which
never panics, the instance still has that same client. -/
theorem NewLokiLogger_atomic_and_client_kept (table : Char → Char) (w : World) :
    ((∃ l, (NewLokiLogger table w).1 = (some l, none)) ∨
      (∃ e, (NewLokiLogger table w).1 = (none, some e))) ∧
    ∀ l, (NewLokiLogger table w).1.1 = some l →
      ∃ c, l.client = some c ∧
        ∀ ops w1, ∃ errs l2 w2, run l ops w1 = some (errs, l2, w2) ∧ l2.client = some c := by
  constructor
  · rcases NewLokiLogger_cases table w with ⟨_, r⟩ | ⟨_, _, _, _, r⟩ | ⟨_, _, _, _, _, _, r⟩ |
        ⟨_, _, _, _, _, _, r⟩
    · exact Or.inr ⟨_, by rw [r]⟩
    · exact Or.inr ⟨_, by rw [r]⟩
    · exact Or.inr ⟨_, by rw [r]⟩
    · exact Or.inl ⟨_, by rw [r]⟩
  · intro l hl
    rcases NewLokiLogger_cases table w with ⟨_, r⟩ | ⟨_, _, _, _, r⟩ | ⟨_, _, _, _, _, _, r⟩ |
        ⟨endpoint, _, c, _, _, _, r⟩
    · rw [r] at hl; simp at hl
    · rw [r] at hl; simp at hl
    · rw [r] at hl; simp at hl
    · rw [r] at hl
      simp only [Option.some.injEq] at hl
      have hc : l.client = some c := by rw [← hl]; rfl
      refine ⟨c, hc, ?_⟩
      intro ops w1
      obtain ⟨errs, w2, h2, _⟩ := run_of_client hc ops w1
      exact ⟨errs, l, w2, h2, hc⟩

/-- Witness of C5: the instance constructed in `sampleWorld` keeps its client
through a push, a shutdown and another push. -/
theorem NewLokiLogger_atomic_and_client_kept_witness :
    (NewLokiLogger sampleTable sampleWorld).1.1 = some sampleLogger ∧
    ∃ errs l2 w2,
      run sampleLogger [Op.push "a", Op.shutdown, Op.push "b"] sampleWorldBuilt =
        some (errs, l2, w2) ∧
      l2.client = some sampleClient := by
  obtain ⟨c, hc, hrun⟩ := (NewLokiLogger_atomic_and_client_kept sampleTable sampleWorld).2 sampleLogger rfl
  have e : c = sampleClient := (Option.some.inj hc).symm
  rw [e] at hrun
  exact ⟨rfl, hrun _ _⟩

/-! ## PushLog -/

/-- Claim C2: on a successfully constructed instance, one call `PushLog(line)`
in any world returns without panic and leaves the world with exactly one more
collaborator call, a `Handle` call on the instance's client whose arguments are
the label set holding the single pair job = "lambda", the reading of the clock
taken during the call (the only one taken), and `line` itself. -/
theorem PushLog_forwards_one_entry (table : Char → Char) (w0 w1 : World) (l : LokiLogger)
    (h : NewLokiLogger table w0 = ((some l, none), w1)) (line : String) (w : World) :
    ∃ c err, l.client = some c ∧
      l.PushLog line w =
        some ((err, l),
          { w with
            reads := w.reads + 1
            trace := w.trace ++ [Event.handle c [("job", "lambda")] (time.Now w).1 line] }) := by
  obtain ⟨endpoint, c, _, hl⟩ := NewLokiLogger_built h
  have hc : l.client = some c := by rw [hl]; rfl
  exact ⟨c, _, hc, PushLog_of_client hc line w⟩

/-- Witness of C2: a push on the instance constructed in `sampleWorld`. -/
theorem PushLog_forwards_one_entry_witness :
    NewLokiLogger sampleTable sampleWorld = ((some sampleLogger, none), sampleWorldBuilt) ∧
    ∃ c err, sampleLogger.client = some c ∧
      sampleLogger.PushLog "  START RequestId: 1 \n" sampleWorldBuilt =
        some ((err, sampleLogger),
          { sampleWorldBuilt with
            reads := sampleWorldBuilt.reads + 1
            trace := sampleWorldBuilt.trace ++
              [Event.handle c [("job", "lambda")] (time.Now sampleWorldBuilt).1
                "  START RequestId: 1 \n"] }) :=
  ⟨rfl, PushLog_forwards_one_entry sampleTable sampleWorld sampleWorldBuilt sampleLogger rfl
    "  START RequestId: 1 \n" sampleWorldBuilt⟩

/-- Claim C3: on an instance with client `c`, `PushLog(line)` returns exactly
what the one `Handle` call it makes returns, an error unchanged or nil, and the
trace afterwards holds exactly one more `Handle` call than before. -/
theorem PushLog_returns_Handle_result (l : LokiLogger) (c : Client) (hc : l.client = some c)
    (line : String) (w : World) :
    ∃ w1, l.PushLog line w =
        some (((c.Handle labels (time.Now w).1 line (time.Now w).2).1, l), w1) ∧
      (handledLines w1.trace).length = (handledLines w.trace).length + 1 ∧
      (∀ e, (c.Handle labels (time.Now w).1 line (time.Now w).2).1 = some e →
        (l.PushLog line w).map (fun r => r.1.1) = some (some e)) ∧
      ((c.Handle labels (time.Now w).1 line (time.Now w).2).1 = none →
        (l.PushLog line w).map (fun r => r.1.1) = some none) := by
  refine ⟨_, PushLog_of_client hc line w, ?_, ?_, ?_⟩
  · simp [handledLines_append, handledLines]
  · intro e he
    rw [PushLog_of_client hc line w]
    exact congrArg (fun x => some x) he
  · intro he
    rw [PushLog_of_client hc line w]
    exact congrArg (fun x => some x) he

/-- Witness of C3: in `sampleWorld` every `Handle` call fails, and the push
returns that very error. -/
theorem PushLog_returns_Handle_result_witness :
    sampleLogger.client = some sampleClient ∧
    (sampleLogger.PushLog "line" sampleWorldBuilt).map (fun r => r.1.1) =
      some (some (GoError.library 3 "connection refused")) := by
  obtain ⟨_, _, _, herr, _⟩ :=
    PushLog_returns_Handle_result sampleLogger sampleClient rfl "line" sampleWorldBuilt
  exact ⟨rfl, herr _ rfl⟩

/-- Claim C9: a single caller pushing the lines `l1, ..., ln` one after the other
on an instance with client `c` never panics and gets one result a call; the
calls it adds to the trace are exactly n `Handle` calls on `c`, carrying
`l1, ..., ln` in that order, whatever each call returns, failures included. -/
theorem PushLog_keeps_call_order (l : LokiLogger) (c : Client) (hc : l.client = some c)
    (lines : List String) (w : World) :
    ∃ errs w1, run l (lines.map Op.push) w = some (errs, l, w1) ∧
      errs.length = lines.length ∧
      w1.trace = w.trace ++ pushEvents c w.clock w.reads lines ∧
      (pushEvents c w.clock w.reads lines).length = lines.length ∧
      handledLines (pushEvents c w.clock w.reads lines) = lines ∧
      handledLines w1.trace = handledLines w.trace ++ lines := by
  obtain ⟨errs, h1, h2⟩ := run_pushes hc lines w
  refine ⟨errs, _, h1, h2, rfl, pushEvents_length _ _ _ _, handledLines_pushEvents _ _ _ _, ?_⟩
  simp [handledLines_append, handledLines_pushEvents]

/-- Witness of C9: three pushes that all fail are still forwarded in order. -/
theorem PushLog_keeps_call_order_witness :
    sampleLogger.client = some sampleClient ∧
    ∃ errs w1, run sampleLogger (["a", "b", "a"].map Op.push) sampleWorldBuilt =
        some (errs, sampleLogger, w1) ∧
      errs.length = 3 ∧
      handledLines w1.trace = handledLines sampleWorldBuilt.trace ++ ["a", "b", "a"] := by
  refine ⟨rfl, ?_⟩
  obtain ⟨errs, w1, h1, h2, _, _, _, h6⟩ :=
    PushLog_keeps_call_order sampleLogger sampleClient rfl ["a", "b", "a"] sampleWorldBuilt
  exact ⟨errs, w1, h1, h2, h6⟩

/-! ## Shutdown -/

/-- Claim C8: on every instance and in every world `Shutdown` returns nil and
leaves the instance and the world, hence the trace of collaborator calls, as
they were; any number of `Shutdown` calls in a row returns nil each time and
ends in the state in which it started. -/
theorem Shutdown_is_noop (l : LokiLogger) (w : World) :
    l.Shutdown w = ((none, l), w) ∧
    (l.Shutdown w).2.trace = w.trace ∧
    ∀ n, run l (List.replicate n Op.shutdown) w = some (List.replicate n none, l, w) :=
  ⟨rfl, rfl, run_shutdowns l w⟩

/-! ## The log buffer -/

/-- Claim C10: the log buffer of a successfully constructed instance is empty
and has capacity at least 2 × 5,242,880 = 10,485,760; any sequence of `PushLog`
and `Shutdown` calls, and any single `PushLog`, gives back the instance with
every field as it was, so the buffer stays empty and unwritten. -/
theorem logBuffer_untouched (table : Char → Char) (w0 w1 : World) (l : LokiLogger)
    (h : NewLokiLogger table w0 = ((some l, none), w1)) :
    (∃ b, l.logBuffer = some b ∧ b.buf = [] ∧ b.Len = 0 ∧
      2 * MaxPartSize ≤ b.cap ∧ 10485760 ≤ b.cap) ∧
    (∀ ops w, ∃ errs l2 w2, run l ops w = some (errs, l2, w2) ∧ l2 = l ∧
      l2.logBuffer = l.logBuffer ∧ l2.functionName = l.functionName ∧
      l2.endpoint = l.endpoint ∧ l2.key = l.key) ∧
    (∀ line w, ∃ err l2 w2, l.PushLog line w = some ((err, l2), w2) ∧ l2 = l) := by
  obtain ⟨endpoint, c, _, hl⟩ := NewLokiLogger_built h
  have hc : l.client = some c := by rw [hl]; rfl
  refine ⟨⟨⟨[], 10485760⟩, by rw [hl]; rfl, rfl, rfl, by decide, le_refl _⟩, ?_, ?_⟩
  · intro ops w
    obtain ⟨errs, w2, h2, _⟩ := run_of_client hc ops w
    exact ⟨errs, l, w2, h2, rfl, rfl, rfl, rfl, rfl⟩
  · intro line w
    exact ⟨_, l, _, PushLog_of_client hc line w, rfl⟩

/-- Witness of C10: the buffer of the instance constructed in `sampleWorld`. -/
theorem logBuffer_untouched_witness :
    NewLokiLogger sampleTable sampleWorld = ((some sampleLogger, none), sampleWorldBuilt) ∧
    ∃ b, sampleLogger.logBuffer = some b ∧ b.buf = [] ∧ b.Len = 0 ∧
      2 * MaxPartSize ≤ b.cap ∧ 10485760 ≤ b.cap :=
  ⟨rfl, (logBuffer_untouched sampleTable sampleWorld sampleWorldBuilt sampleLogger rfl).1⟩

end Agent
